import Mathlib

/-!
Shallow embedding of `src/managetkeventdata/__init__.py`: the cross-thread
call-marshalling core (sequencer, pending call queue, notification stream,
return cells, the mute and ordinary proxy dispatch paths, and the
owner-thread handlers).  Python exceptions are modelled with `Except`:
a bound zero-argument call is represented by its outcome `Except E A`
(`.ok v` = returns the object `v`, `.error e` = raises the exception
object `e`), since each bound call is invoked exactly once.
-/

namespace Managetkeventdata

variable {P W E A M N : Type}

/-- Model of the `SmallEvent` namedtuple (line 315): `SmallEvent(data, widget)`. -/
structure SmallEvent (P W : Type) where
  data : P
  widget : W
  deriving DecidableEq

/-- State of the module-level objects created by `init_module` (lines 88-94):
`datastream` is the deque of `(index, data)` pairs, `count` the next value the
`itertools.count()` counter will yield, and `notifications` the ordered stream
of index tokens handed to the Tcl event queue with tail placement by
`widget.event_generate` (one per generated event, in issue order: the
generation lock serializes issuing, and tail placement preserves that order). -/
structure SysState (P : Type) where
  datastream : List (Nat × P)
  count : Nat
  notifications : List Nat
  deriving DecidableEq

/-- The freshly initialized module state: empty deque, counter at zero,
no notification issued yet. -/
def SysState.init (P : Type) : SysState P := ⟨[], 0, []⟩

/-- Well-formedness of the shared state: every index still sitting in the
deque was issued by the counter, hence is below its next value.  This holds
for every state reachable from `SysState.init`. -/
def SysState.WF (s : SysState P) : Prop := ∀ p ∈ s.datastream, p.1 < s.count

instance (s : SysState P) : Decidable s.WF :=
  inferInstanceAs (Decidable (∀ p ∈ s.datastream, p.1 < s.count))

/-- Model of `event_generate` (lines 118-134): under the generation lock,
draw the next index from the counter, append `(index, data)` to the deque, and
generate the Tcl event carrying `str(index)` with `when='tail'`.  The widget
argument only selects the Tcl event target; it does not enter the shared
state, which is module-global. -/
def event_generate (_widget : W) (s : SysState P) (data : P) : SysState P :=
  { datastream := s.datastream ++ [(s.count, data)]
    count := s.count + 1
    notifications := s.notifications ++ [s.count] }

/-- Outcome of the dequeue loop inside `bind._substitute` (lines 107-111):
`ok data rest` when the loop pops the entry whose index equals the notified
one, `orderingViolation n` when the `assert n == index` fails after popping an
entry with a larger index `n`, and `emptyQueue` when `dequeue()` raises
`IndexError` on an exhausted deque. -/
inductive TakeResult (P : Type)
  | ok (data : P) (rest : List (Nat × P))
  | orderingViolation (n : Nat)
  | emptyQueue
  deriving DecidableEq

/-- The dequeue loop of `bind._substitute` (lines 107-111): repeatedly
`n, data = dequeue()`; keep looping while `n < index`; on `n >= index` break
and `assert n == index`. -/
def take (index : Nat) : List (Nat × P) → TakeResult P
  | [] => .emptyQueue
  | (n, data) :: rest =>
      if n < index then take index rest
      else if n = index then .ok data rest
      else .orderingViolation n

/-- Model of `bind._substitute` (lines 105-112): convert the notified index
into the matching payload and wrap it as `SmallEvent(data, widget)`, where
`widget` is the widget captured by `bind`'s closure (not the widget the event
was generated on).  `none` models the owner-thread callback dying on the
failed assertion or the empty deque. -/
def substitute (widget : W) (index : Nat) (q : List (Nat × P)) :
    Option (SmallEvent P W × List (Nat × P)) :=
  match take index q with
  | .ok data rest => some (⟨data, widget⟩, rest)
  | _ => none

/-- The object sitting in a `ReturnCell`'s `_value` slot: either a normal
return value or a captured exception object.  (`_value` is dynamically typed
in the source; `Option` on the slot models its initial `None`.) -/
inductive CellVal (E A : Type)
  | res (a : A)
  | exc (e : E)
  deriving DecidableEq

/-- Model of `ReturnCell` (lines 136-152): `value` is `_value`, `err_flag`
the exception flag, `bell` the `threading.Event` (`true` = set). -/
structure ReturnCell (E A : Type) where
  value : Option (CellVal E A)
  err_flag : Bool
  bell : Bool
  deriving DecidableEq

/-- A freshly constructed `ReturnCell` (lines 145-152): `_value = None`,
`err_flag = False`, event not set. -/
def ReturnCell.new (E A : Type) : ReturnCell E A := ⟨none, false, false⟩

/-- Model of `ReturnCell.set_return` (lines 154-156): swap the new value into
`_value` and return the old one. -/
def ReturnCell.set_return (c : ReturnCell E A) (v : Option (CellVal E A)) :
    Option (CellVal E A) × ReturnCell E A :=
  (c.value, { c with value := v })

/-- Model of `ProcHandler.__call__` (lines 193-196), the owner-thread handler
for mute proxy calls created without an exception handler.  The body is the
bare statement `event.data.func()`: the call's return value is dropped, and an
exception raised by the call propagates out of the handler invocation (there
is no `try`/`except` around it), i.e. the handler outcome is `.error e`. -/
def ProcHandler.call (func : Except E A) : Except E Unit :=
  match func with
  | .ok _ => .ok ()
  | .error e => .error e

/-- One primitive effect `FuncHandler.__call__` performs on the caller's
return cell. -/
inductive CellOp (E A : Type)
  | setErrFlag (b : Bool)
  | storeValue (v : Option (CellVal E A))
  | setBell
  deriving DecidableEq

/-- Apply one cell effect: `setErrFlag` is the assignment
`cell.err_flag = err_flag`, `storeValue` is `cell.set_return(result)`
(whose returned old value the handler discards), `setBell` is
`cell.bell.set()`. -/
def CellOp.apply (c : ReturnCell E A) : CellOp E A → ReturnCell E A
  | .setErrFlag b => { c with err_flag := b }
  | .storeValue v => (c.set_return v).2
  | .setBell => { c with bell := true }

/-- Recognize a `storeValue` effect. -/
def CellOp.isStore : CellOp E A → Bool
  | .storeValue _ => true
  | _ => false

/-- Recognize a `setErrFlag` effect. -/
def CellOp.isFlag : CellOp E A → Bool
  | .setErrFlag _ => true
  | _ => false

/-- Recognize the `setBell` effect. -/
def CellOp.isBell : CellOp E A → Bool
  | .setBell => true
  | _ => false

/-- The `err_flag` value computed by `FuncHandler.__call__`'s
`try`/`except` (lines 215-221): `True` exactly when the bound call raised. -/
def errFlagOf : Except E A → Bool
  | .ok _ => false
  | .error _ => true

/-- The `result` object computed by `FuncHandler.__call__`'s `try`/`except`
(lines 215-221): the returned value, or the caught exception object. -/
def resultOf : Except E A → CellVal E A
  | .ok v => .res v
  | .error e => .exc e

/-- The effect sequence of `FuncHandler.__call__` on the caller's cell, in
source order (lines 222-224): `cell.err_flag = err_flag`;
`cell.set_return(result)`; `cell.bell.set()`. -/
def FuncHandler.ops (func : Except E A) : List (CellOp E A) :=
  [.setErrFlag (errFlagOf func), .storeValue (some (resultOf func)), .setBell]

/-- Model of `FuncHandler.__call__` (lines 213-224) as a transformer of the
caller's return cell: run the bound call, then apply the three cell effects
in source order. -/
def FuncHandler.call (c : ReturnCell E A) (func : Except E A) : ReturnCell E A :=
  (FuncHandler.ops func).foldl CellOp.apply c

/-- Model of `ProcGenerator.__call__` (lines 239-241): a mute proxy call just
generates the event carrying `EventData(handler, func)` and returns to the
caller at once.  The handler slot always holds the proxy's `ProcHandler`, so
the payload is modelled by `func` alone.  The return type has no error or
value component: the caller can neither block nor observe a value or an
exception. -/
def ProcGenerator.call (w : W) (s : SysState P) (func : P) : SysState P :=
  event_generate w s func

/-- A mute proxy call followed by the owner thread handling the generated
notification (`handle_call` dispatching to `ProcHandler`, lines 183-196).
The caller already returned when `ProcGenerator.call` did; the first
component is the outcome of the owner-side handler invocation, which the
caller never sees.  `none` models the owner-side dequeue failing before the
handler runs. -/
def muteRoundTrip (w : W) (s : SysState (Except E A)) (func : Except E A) :
    Option (Except E Unit × SysState (Except E A)) :=
  let s1 := ProcGenerator.call w s func
  match take s.count s1.datastream with
  | .ok data rest => some (ProcHandler.call data, { s1 with datastream := rest })
  | _ => none

/-- Outcome delivered to the calling thread of an ordinary proxy call made
from a worker thread (lines 258-263): after `result = cell.set_return(None)`,
the caller raises `result` if `cell.err_flag` is set and returns `result`
otherwise.  Either way the carried object is exactly the one read from the
cell's slot. -/
inductive SyncOutcome (E A : Type)
  | ret (v : Option (CellVal E A))
  | raised (v : Option (CellVal E A))
  deriving DecidableEq

/-- Model of `FuncGenerator.__call__`'s worker-thread path (lines 251-263)
composed with the owner thread's handling of the generated notification:
clear the bell, generate the event carrying `EventData(handler, cell, func)`
(the handler slot always holds the proxy's `FuncHandler` and the cell is this
thread's cell, so the queued payload is modelled by `func`); the owner thread
then dequeues the payload for the notified index and runs `FuncHandler`;
finally `cell.bell.wait()` returns (the handler set the bell) and the caller
reads and dispatches.  `none` models the owner-side dequeue failing, in which
case the bell is never set and the caller blocks forever. -/
def FuncGenerator.callFromWorker (w : W) (s : SysState (Except E A))
    (c : ReturnCell E A) (func : Except E A) :
    Option (SyncOutcome E A × SysState (Except E A) × ReturnCell E A) :=
  let c1 := { c with bell := false }
  let s1 := event_generate w s func
  match take s.count s1.datastream with
  | .ok data rest =>
      let c2 := FuncHandler.call c1 data
      let r := c2.set_return none
      some (if r.2.err_flag then .raised r.1 else .ret r.1,
        { s1 with datastream := rest }, r.2)
  | _ => none

/-- Model of `FuncGenerator.__call__` (lines 247-263).  `cell?` is what
`return_cell()` (lines 160-175) yields for the calling thread: `none` in the
owner (main) thread, `some c` with that thread's cached cell otherwise.  In
the owner thread the bound call runs immediately and in place (`Sum.inl func`
is its direct outcome: the returned value, or the exception propagating to
the caller); nothing else is touched.  From a worker thread the call is
marshalled as in `FuncGenerator.callFromWorker`. -/
def FuncGenerator.call (w : W) (s : SysState (Except E A))
    (cell? : Option (ReturnCell E A)) (func : Except E A) :
    Option ((Except E A ⊕ SyncOutcome E A) ×
      SysState (Except E A) × Option (ReturnCell E A)) :=
  match cell? with
  | none => some (Sum.inl func, s, none)
  | some c =>
      (FuncGenerator.callFromWorker w s c func).map
        fun r => (Sum.inr r.1, r.2.1, some r.2.2)

/-- Outcome of a direct, same-thread invocation of the bound call,
transported to `SyncOutcome`: the refinement map for the round-trip property
(spec section 8, Round trip).  A direct call of `func` returns the object
`v` when `func = .ok v` and raises the object `e` when `func = .error e`;
the marshalled path additionally routes that very object through the cell
slot, whence the `some`. -/
def directOutcome (func : Except E A) : SyncOutcome E A :=
  match func with
  | .ok v => .ret (some (.res v))
  | .error e => .raised (some (.exc e))

/-- A forwarding callable produced by attribute access on a `Proxy`:
`make_proxy._getattr` (lines 274-275) evaluates `getattr(obj, name)` eagerly
and closes `partial(method, ...)` over the resolved method object, which the
structure records. -/
structure Forwarder (M : Type) where
  func : M
  deriving DecidableEq

/-- Model of `Proxy.__getattr__` (lines 321-322) composed with
`make_proxy._getattr` (lines 274-275): accessing attribute `name` on the
proxy resolves `name` against the target's current attribute table `obj`
immediately and packages the resolved method object. -/
def Proxy.getattrProxy (obj : N → M) (name : N) : Forwarder M := ⟨obj name⟩

/-- Calling the forwarder (`make_proxy.method`, lines 271-272) dispatches the
method object captured at access time through the generator; the target is
not consulted again. -/
def Forwarder.invoke (f : Forwarder M) : M := f.func

/-- A call `proxy.name(...)`: a fresh attribute access immediately followed
by the call, both under the target's current attribute table. -/
def proxyCall (obj : N → M) (name : N) : M := (Proxy.getattrProxy obj name).invoke

/-- Resolution as the spec describes it (section 4.5): the forwarding
callable keeps only the name and resolves it against the attribute table
current at call time.  Second definition, written from the spec's words, for
comparison with the source's `Proxy.getattrProxy`/`Forwarder.invoke`. -/
def specCallTimeResolution (objAtCall : N → M) (name : N) : M := objAtCall name

/-- A sequence of `event_generate` calls, serialized by the generation lock
(lines 124-134): the fold order is the order in which the producers entered
the critical section. -/
def schedule_all (w : W) (s : SysState P) (ds : List P) : SysState P :=
  ds.foldl (event_generate w) s

/-! Helper lemmas shared by the claim theorems. -/

/-- Entries whose index is below the target are popped and discarded, so a
prefix of such entries does not change the result of the dequeue loop. -/
theorem take_append (i : Nat) (q : List (Nat × P)) (h : ∀ p ∈ q, p.1 < i)
    (tl : List (Nat × P)) : take i (q ++ tl) = take i tl := by
  induction q with
  | nil => rfl
  | cons p q ih =>
      obtain ⟨n, d⟩ := p
      have hn : n < i := h (n, d) (List.mem_cons_self _ _)
      simpa [take, hn] using ih fun p hp => h p (List.mem_cons_of_mem _ hp)

/-- Dequeuing the index of the entry just appended to a well-formed queue
discards the older entries and yields that entry's payload. -/
theorem take_snoc (i : Nat) (q : List (Nat × P)) (d : P)
    (h : ∀ p ∈ q, p.1 < i) : take i (q ++ [(i, d)]) = TakeResult.ok d [] := by
  rw [take_append i q h]
  simp [take]

/-- Characterization of a full worker-thread ordinary proxy call on a
well-formed state: the notification finds its payload, the handler fills and
clears the cell, and the caller's dispatch agrees with a direct invocation. -/
theorem callFromWorker_eq (w : W) (s : SysState (Except E A))
    (c : ReturnCell E A) (func : Except E A) (h : s.WF) :
    FuncGenerator.callFromWorker w s c func =
      some (directOutcome func,
        { datastream := [], count := s.count + 1,
          notifications := s.notifications ++ [s.count] },
        { value := none, err_flag := errFlagOf func, bell := true }) := by
  have ht := take_snoc s.count s.datastream func h
  cases func <;>
    simp [FuncGenerator.callFromWorker, event_generate, ht, FuncHandler.call,
      FuncHandler.ops, CellOp.apply, ReturnCell.set_return, errFlagOf,
      resultOf, directOutcome]

/-- Characterization of a full mute proxy round trip on a well-formed state:
the caller's dispatch is exactly the enqueue-and-notify step, and the owner
side hands the bound call to `ProcHandler`. -/
theorem muteRoundTrip_eq (w : W) (s : SysState (Except E A))
    (func : Except E A) (h : s.WF) :
    muteRoundTrip w s func =
      some (ProcHandler.call func,
        { datastream := [], count := s.count + 1,
          notifications := s.notifications ++ [s.count] }) := by
  have ht := take_snoc s.count s.datastream func h
  simp [muteRoundTrip, ProcGenerator.call, event_generate, ht]

/-- The counter advances once per scheduled call. -/
theorem schedule_all_count (w : W) (ds : List P) :
    ∀ s : SysState P, (schedule_all w s ds).count = s.count + ds.length := by
  induction ds with
  | nil => intro s; simp [schedule_all]
  | cons d ds ih =>
      intro s
      have := ih (event_generate w s d)
      simp only [schedule_all, List.foldl_cons] at this ⊢
      rw [this]
      simp [event_generate]
      omega

/-- The notification stream produced by a run of scheduled calls is the
contiguous index range starting at the incoming counter value. -/
theorem schedule_all_notifications (w : W) (ds : List P) :
    ∀ s : SysState P,
      (schedule_all w s ds).notifications =
        s.notifications ++ List.range' s.count ds.length := by
  induction ds with
  | nil => intro s; simp [schedule_all]
  | cons d ds ih =>
      intro s
      have := ih (event_generate w s d)
      simp only [schedule_all, List.foldl_cons] at this ⊢
      rw [this]
      simp [event_generate, List.range'_succ]

/-- The queue after a run of scheduled calls holds the incoming entries
followed by the new payloads tagged with consecutive indices. -/
theorem schedule_all_datastream (w : W) (ds : List P) :
    ∀ s : SysState P,
      (schedule_all w s ds).datastream =
        s.datastream ++ (List.range' s.count ds.length).zip ds := by
  induction ds with
  | nil => intro s; simp [schedule_all]
  | cons d ds ih =>
      intro s
      have := ih (event_generate w s d)
      simp only [schedule_all, List.foldl_cons] at this ⊢
      rw [this]
      simp [event_generate, List.range'_succ]

/-! Claim theorems. -/

/-- C1, counterexample: the claim says that for a mute proxy without an
exception handler, an exception raised by the wrapped method is silently
discarded by the owner-thread handler, whose invocation completes without
propagating it.  `ProcHandler.__call__` has no `try`/`except`: at the
concrete throwing call modelled by `Except.error 3`, the handler invocation
does not complete normally — its outcome is the propagating exception, not
`Except.ok ()`. -/
theorem ProcHandler_propagates_exception :
    ProcHandler.call (Except.error 3 : Except Nat Nat) ≠ Except.ok () := by
  simp [ProcHandler.call]

/-- C1, amended: for a mute proxy call with no exception handler configured,
the caller is never blocked and no exception or value reaches the calling
thread (`ProcGenerator.call`, the caller-visible step of `muteRoundTrip`,
returns only the new shared state — its type has no value or error
component); but when the wrapped method raises, the exception is not
discarded by the handler: the owner-thread handler invocation terminates by
propagating that same exception object to the surrounding run-loop, while a
normally returning method makes the handler complete with its value
dropped. -/
theorem mute_call_semantics (w : W) (s : SysState (Except E A)) (e : E)
    (v : A) (h : s.WF) :
    muteRoundTrip w s (Except.error e) =
      some (Except.error e,
        { datastream := [], count := s.count + 1,
          notifications := s.notifications ++ [s.count] }) ∧
    muteRoundTrip w s (Except.ok v) =
      some (Except.ok (),
        { datastream := [], count := s.count + 1,
          notifications := s.notifications ++ [s.count] }) := by
  refine ⟨?_, ?_⟩ <;> rw [muteRoundTrip_eq _ _ _ h] <;> rfl

/-- Witness for `mute_call_semantics` at a concrete well-formed state. -/
theorem mute_call_semantics_witness :
    muteRoundTrip 0 (SysState.init (Except Nat Nat)) (Except.error 3) =
      some (Except.error 3,
        { datastream := [], count := 1, notifications := [0] }) ∧
    muteRoundTrip 0 (SysState.init (Except Nat Nat)) (Except.ok 5) =
      some (Except.ok (),
        { datastream := [], count := 1, notifications := [0] }) :=
  mute_call_semantics 0 (SysState.init (Except Nat Nat)) 3 5 (by decide)

/-- C2: the owner-thread dequeue loop pops from the head of the queue,
discards every popped entry whose index is strictly below the expected one
and retries, returns the payload (and the remaining queue) of the entry whose
index equals the expected one, and fails with the ordering-violation
assertion whenever the popped index is strictly greater; consequently, on a
queue whose stale prefix all carries smaller indices, it skips that prefix
and delivers the matching entry's payload. -/
theorem take_ordering (i n : Nat) (d : P) (q rest pre : List (Nat × P)) :
    (n < i → take i ((n, d) :: q) = take i q) ∧
    take i ((i, d) :: q) = TakeResult.ok d q ∧
    (i < n → take i ((n, d) :: q) = TakeResult.orderingViolation n) ∧
    ((∀ p ∈ pre, p.1 < i) →
      take i (pre ++ (i, d) :: rest) = TakeResult.ok d rest) := by
  refine ⟨fun h => ?_, ?_, fun h => ?_, fun h => ?_⟩
  · simp [take, h]
  · simp [take]
  · have h1 : ¬n < i := by omega
    have h2 : ¬n = i := by omega
    simp [take, h1, h2]
  · rw [take_append i pre h]
    simp [take]

/-- Witness for `take_ordering`: each clause exercised at concrete queues. -/
theorem take_ordering_witness :
    take 2 [((1 : Nat), (7 : Nat)), (2, 8)] = take 2 [(2, 8)] ∧
    take 2 [((2 : Nat), (8 : Nat)), (3, 9)] = TakeResult.ok 8 [(3, 9)] ∧
    take 2 [((3 : Nat), (9 : Nat))] = TakeResult.orderingViolation 3 ∧
    take 2 ([((0 : Nat), (5 : Nat)), (1, 6)] ++ (2, 8) :: []) =
      TakeResult.ok 8 [] :=
  ⟨(take_ordering 2 1 7 [(2, 8)] [] []).1 (by decide),
   (take_ordering 2 0 8 [(3, 9)] [] []).2.1,
   (take_ordering 2 3 9 [] [] []).2.2.1 (by decide),
   (take_ordering 2 0 8 [] [] [(0, 5), (1, 6)]).2.2.2 (by decide)⟩

/-- C5: a synchronous (ordinary-proxy) dispatch issued from the owner thread
— where `return_cell()` yields `None` — executes the bound call immediately
and in place (the first component is the direct outcome of `func`), and
returns the shared state exactly as it was: no entry is enqueued, the counter
does not advance, no notification is issued, and no return cell is created or
touched. -/
theorem owner_dispatch_frame (w : W) (s : SysState (Except E A))
    (func : Except E A) :
    FuncGenerator.call w s none func = some (Sum.inl func, s, none) := rfl

/-- C6, counterexample: the claim says the owner-thread handler first stores
the result into the cell's value and only then sets `err_flag`.  In
`FuncHandler.__call__` the assignment `cell.err_flag = err_flag` precedes
`cell.set_return(result)`: on the concrete call `Except.ok 0`, the store of
the value does not occur before the flag write. -/
theorem store_not_first_in_handler :
    ¬((FuncHandler.ops (Except.ok 0 : Except Nat Nat)).findIdx
        CellOp.isStore <
      (FuncHandler.ops (Except.ok 0 : Except Nat Nat)).findIdx
        CellOp.isFlag) := by
  decide

/-- C6, amended: the owner-thread handler performs its three effects in the
order `err_flag` write, then value store, then ready signal; in particular
the ready signal is still never set before both the value and the flag have
been written: after the first two effects the cell already holds the result
object and the matching flag while the bell is still clear, and only the
final effect rings it. -/
theorem handler_effect_order (func : Except E A) (c : ReturnCell E A) :
    (FuncHandler.ops func).findIdx CellOp.isFlag <
      (FuncHandler.ops func).findIdx CellOp.isStore ∧
    (FuncHandler.ops func).findIdx CellOp.isStore <
      (FuncHandler.ops func).findIdx CellOp.isBell ∧
    ((FuncHandler.ops func).take 2).foldl CellOp.apply { c with bell := false } =
      { value := some (resultOf func), err_flag := errFlagOf func,
        bell := false } ∧
    (FuncHandler.ops func).foldl CellOp.apply { c with bell := false } =
      { value := some (resultOf func), err_flag := errFlagOf func,
        bell := true } := by
  cases func <;> exact ⟨Nat.zero_lt_one, Nat.one_lt_two, rfl, rfl⟩

/-- C3: for an ordinary proxy call dispatched from a worker thread whose
scheduled call is handled by the owner thread, the marshalled path through
`FuncGenerator` and `FuncHandler` produces, as a function of the bound call,
exactly the outcome of a direct invocation: the very value object the wrapped
method returns is what the caller receives (via the refinement map
`directOutcome`), with the scheduled entry consumed and the cell left
drained. -/
theorem roundtrip_refines_direct (w : W) (s : SysState (Except E A))
    (c : ReturnCell E A) (func : Except E A) (h : s.WF) :
    FuncGenerator.call w s (some c) func =
      some (Sum.inr (directOutcome func),
        { datastream := [], count := s.count + 1,
          notifications := s.notifications ++ [s.count] },
        some { value := none, err_flag := errFlagOf func, bell := true }) := by
  simp [FuncGenerator.call, callFromWorker_eq w s c func h]

/-- Witness for `roundtrip_refines_direct` at a concrete call returning 5. -/
theorem roundtrip_refines_direct_witness :
    FuncGenerator.call 0 (SysState.init (Except Nat Nat))
        (some (ReturnCell.new Nat Nat)) (Except.ok 5) =
      some (Sum.inr (directOutcome (Except.ok 5)),
        { datastream := [], count := 1, notifications := [0] },
        some { value := none, err_flag := false, bell := true }) :=
  roundtrip_refines_direct 0 (SysState.init (Except Nat Nat))
    (ReturnCell.new Nat Nat) (Except.ok 5) (by decide)

/-- C4: for an ordinary proxy call handled by the owner thread, when the
wrapped method raises the exception object `e`, the calling thread's dispatch
re-raises that identical object `e` (it is passed through the cell by
reference, not reconstructed), and when the wrapped method returns normally
the dispatch returns the carried value without raising. -/
theorem exception_propagation (w : W) (s : SysState (Except E A))
    (c : ReturnCell E A) (e : E) (v : A) (h : s.WF) :
    ((FuncGenerator.call w s (some c) (Except.error e)).map fun r => r.1) =
      some (Sum.inr (SyncOutcome.raised (some (CellVal.exc e)))) ∧
    ((FuncGenerator.call w s (some c) (Except.ok v)).map fun r => r.1) =
      some (Sum.inr (SyncOutcome.ret (some (CellVal.res v)))) := by
  constructor <;>
    simp [FuncGenerator.call, callFromWorker_eq w s c _ h, directOutcome]

/-- Witness for `exception_propagation` with exception object 3 and value
object 5. -/
theorem exception_propagation_witness :
    ((FuncGenerator.call 0 (SysState.init (Except Nat Nat))
        (some (ReturnCell.new Nat Nat)) (Except.error 3)).map fun r => r.1) =
      some (Sum.inr (SyncOutcome.raised (some (CellVal.exc 3)))) ∧
    ((FuncGenerator.call 0 (SysState.init (Except Nat Nat))
        (some (ReturnCell.new Nat Nat)) (Except.ok 5)).map fun r => r.1) =
      some (Sum.inr (SyncOutcome.ret (some (CellVal.res 5)))) :=
  exception_propagation 0 (SysState.init (Except Nat Nat))
    (ReturnCell.new Nat Nat) 3 5 (by decide)

/-- C7: for every sequence of schedule operations executed under the
generation lock starting from the initial state, the indices assigned to the
queued entries are exactly the notification stream, globally unique and
strictly increasing in generation order, and the queue stays consistent with
the notification stream: for every `n`, the `n`-th notification issued
carries the index of the `n`-th entry appended to the queue. -/
theorem schedule_consistency (w : W) (ds : List P) :
    (schedule_all w (SysState.init P) ds).datastream.map Prod.fst =
      (schedule_all w (SysState.init P) ds).notifications ∧
    (schedule_all w (SysState.init P) ds).notifications.Pairwise (· < ·) ∧
    (schedule_all w (SysState.init P) ds).notifications.Nodup ∧
    ∀ n : Nat,
      (schedule_all w (SysState.init P) ds).notifications[n]? =
        ((schedule_all w (SysState.init P) ds).datastream[n]?).map
          Prod.fst := by
  have hd := schedule_all_datastream w ds (SysState.init P)
  have hn := schedule_all_notifications w ds (SysState.init P)
  have hmap :
      (schedule_all w (SysState.init P) ds).datastream.map Prod.fst =
        (schedule_all w (SysState.init P) ds).notifications := by
    rw [hd, hn]
    simp only [SysState.init, List.nil_append]
    exact List.map_fst_zip _ _ (by simp)
  refine ⟨hmap, ?_, ?_, fun n => ?_⟩
  · rw [hn]
    simpa [SysState.init] using List.pairwise_lt_range' 0 ds.length
  · rw [hn]
    simpa [SysState.init] using List.nodup_range' 0 ds.length
  · rw [← hmap]
    simp

/-- C8, counterexample: the claim says no attribute name is resolved against
the target until the forwarding callable is actually called.  In the source,
`_getattr` evaluates `getattr(obj, name)` the moment the attribute is
accessed: a forwarder obtained while attribute 0 of the target resolved to
the method object 1 keeps invoking 1, whereas resolution at call time, after
the target's table was reassigned to resolve everything to 2, would invoke
2. -/
theorem forwarder_keeps_old_method :
    (Proxy.getattrProxy (fun _ => (1 : Nat)) (0 : Nat)).invoke = 1 ∧
    specCallTimeResolution (fun _ => (2 : Nat)) (0 : Nat) = 2 ∧
    (1 : Nat) ≠ 2 := by
  exact ⟨rfl, rfl, by decide⟩

/-- C8, amended: attribute resolution against the target happens at
attribute-access time — when the forwarding callable is created — and
afresh on every access; hence a call of the shape `proxy.name(args)`, which
performs a fresh access, invokes whatever method the target's table currently
assigns to `name`, so of two such calls bracketing a reassignment the second
invokes the newly assigned method, while a forwarding callable saved from
before the reassignment still invokes the old one. -/
theorem fresh_resolution_per_access (obj objNew : N → M) (name : N) :
    proxyCall obj name = obj name ∧
    proxyCall objNew name = objNew name ∧
    (Proxy.getattrProxy obj name).invoke = obj name :=
  ⟨rfl, rfl, rfl⟩

/-- C9: after a completed blocking synchronous call, the consuming read has
swapped the cell's stored value out for `None` — the returned cell's `value`
slot is empty — and consequently the observable behavior of a call is
independent of whatever the calling thread's reused cell still carried from
before: dispatching with any two incoming cells yields identical results. -/
theorem cell_cleared_on_read (w : W) (s : SysState (Except E A))
    (c c' : ReturnCell E A) (func : Except E A) (h : s.WF) :
    ((FuncGenerator.call w s (some c) func).map
        fun r => r.2.2.map ReturnCell.value) = some (some none) ∧
    FuncGenerator.call w s (some c) func =
      FuncGenerator.call w s (some c') func := by
  constructor
  · simp [FuncGenerator.call, callFromWorker_eq w s c func h]
  · simp [FuncGenerator.call, callFromWorker_eq w s c func h,
      callFromWorker_eq w s c' func h]

/-- Witness for `cell_cleared_on_read`: a dirty incoming cell (stale value,
stale flag, bell up) is drained, and behaves like a fresh one. -/
theorem cell_cleared_on_read_witness :
    ((FuncGenerator.call 0 (SysState.init (Except Nat Nat))
        (some ⟨some (CellVal.res 9), true, true⟩) (Except.ok 5)).map
      fun r => r.2.2.map ReturnCell.value) = some (some none) ∧
    FuncGenerator.call 0 (SysState.init (Except Nat Nat))
        (some ⟨some (CellVal.res 9), true, true⟩) (Except.ok 5) =
      FuncGenerator.call 0 (SysState.init (Except Nat Nat))
        (some (ReturnCell.new Nat Nat)) (Except.ok 5) :=
  cell_cleared_on_read 0 (SysState.init (Except Nat Nat))
    ⟨some (CellVal.res 9), true, true⟩ (ReturnCell.new Nat Nat)
    (Except.ok 5) (by decide)

/-- C10: the handler bound via `bind` receives a `SmallEvent` whose `data`
field is the exact object passed to `event_generate` and whose `widget` field
is the widget captured by `bind`'s closure — regardless of the (possibly
different) widget `event_generate` was called on. -/
theorem small_event_fields (bindWidget genWidget : W) (s : SysState P)
    (d : P) (h : s.WF) :
    substitute bindWidget s.count
        (event_generate genWidget s d).datastream =
      some (⟨d, bindWidget⟩, []) := by
  have ht := take_snoc s.count s.datastream d h
  simp only [event_generate] at ht ⊢
  simp [substitute, ht]

/-- Witness for `small_event_fields` with distinct bind and generate
widgets 3 and 4. -/
theorem small_event_fields_witness :
    substitute 3 (SysState.init Nat).count
        (event_generate 4 (SysState.init Nat) 9).datastream =
      some (⟨9, 3⟩, []) :=
  small_event_fields 3 4 (SysState.init Nat) 9 (by decide)

end Managetkeventdata
